import Mathlib

/-!
Verification of the Dot WIP service (`src/wip_app.py`): a shallow embedding of
its data model (JSON values, project records), its record classifier, its HTML
report renderer, the Airtable fetch wrapper and the `/wip` request handler,
together with theorems settling the behavioural claims made by the
specification.

Modelling conventions:
* Python exceptions are modelled with `Except String`; a Lean `.error` value
  corresponds to a raised exception.
* The behaviour of the external record store (every network interaction inside
  the `try` block of `get_client_projects`) is abstracted into a
  `FetchOutcome` parameter: either both queries succeed and deliver the given
  record lists, or some step of the block raises.
* `datetime.now()` is abstracted into an explicit `today : String` parameter
  of the renderer.
* Python strings are Lean `String`s; `{` and `}` appearing in the HTML
  templates are written with the escapes `\x7b` and `\x7d`, and `'` as `\x27`.
-/

namespace Wip

/-- JSON values, as delivered by `request.get_json()` and produced by
`jsonify`.  Numbers are modelled as integers (no claim involves floats). -/
inductive Json where
  | null : Json
  | bool : Bool → Json
  | num : Int → Json
  | str : String → Json
  | arr : List Json → Json
  | obj : List (String × Json) → Json

/-- Python truthiness of a JSON value (`if not client_code`). -/
def jsonTruthy : Json → Bool
  | .null => false
  | .bool b => b
  | .num n => n != 0
  | .str s => !s.data.isEmpty
  | .arr xs => !xs.isEmpty
  | .obj kvs => !kvs.isEmpty

/-- Python truthiness of `os.environ.get(...)`: `None` and the empty string
are falsy (`if not AIRTABLE_API_KEY`). -/
def optionTruthy : Option String → Bool
  | none => false
  | some s => !s.data.isEmpty

/-- Python `d.get(key, default)`.  On a dict it returns the stored value or
the default; on any non-dict value the attribute access raises
`AttributeError` (modelled as `.error`). -/
def pyGet (d : Json) (key : String) (dflt : Json) : Except String Json :=
  match d with
  | .obj kvs => .ok ((kvs.lookup key).getD dflt)
  | _ => .error "AttributeError: object has no attribute get"

mutual

/-- Python `repr` of a JSON value.  Exact on `None`, booleans, integers and
quote-free strings (the only shapes the claims exercise); structural on
nested lists/dicts (string escaping inside `repr` is not modelled). -/
def pyRepr : Json → String
  | .null => "None"
  | .bool true => "True"
  | .bool false => "False"
  | .num n => toString n
  | .str s => "\x27" ++ s ++ "\x27"
  | .arr xs => "[" ++ ", ".intercalate (pyReprList xs) ++ "]"
  | .obj kvs => "\x7b" ++ ", ".intercalate (pyReprObj kvs) ++ "\x7d"

/-- `repr` of the elements of a JSON array. -/
def pyReprList : List Json → List String
  | [] => []
  | j :: js => pyRepr j :: pyReprList js

/-- `repr` of the entries of a JSON object. -/
def pyReprObj : List (String × Json) → List String
  | [] => []
  | (k, v) :: kvs => ("\x27" ++ k ++ "\x27: " ++ pyRepr v) :: pyReprObj kvs

end

/-- Python `str` of a JSON value, as performed by f-string interpolation. -/
def pyStr : Json → String
  | .str s => s
  | j => pyRepr j

/-- A project record as assembled by `get_client_projects` from the fields of
an Airtable record (`wip_app.py` lines 57-67). -/
structure Project where
  job_number : String
  job_name : String
  description : String
  stage : String
  status : String
  with_client : Bool
  latest_update : String
  update_due : String
  live_date : String
deriving DecidableEq, Repr

/-- A recently-completed project record (`wip_app.py` lines 82-86). -/
structure Completed where
  job_number : String
  job_name : String
  description : String
deriving DecidableEq, Repr

/-- The `client_map` dictionary of `get_client_projects`. -/
def client_map : List (String × String) :=
  [("ONE", "One NZ"), ("ONS", "One NZ (Simplification)"), ("SKY", "Sky"),
   ("TOW", "Tower"), ("FIS", "Fisher Funds"), ("FST", "Firestop"),
   ("HUN", "Hunch"), ("EON", "Eon Fibre"), ("LAB", "Labour"), ("OTH", "Other")]

/-- `client_map.get(client_code, client_code)`: the dict has string keys, so a
non-string code never matches and falls through to the default. -/
def clientMapGet (code : Json) : Json :=
  match code with
  | .str s => .str ((client_map.lookup s).getD s)
  | j => j

/-- Behaviour of the external record store for one request: either every
network interaction inside the `try` block succeeds and the two queries
deliver these (already field-mapped) record lists, or some step of the block
raises with the given message. -/
inductive FetchOutcome where
  | success : List Project → List Completed → FetchOutcome
  | failure : String → FetchOutcome

/-- Result value of `get_client_projects`: the degenerate 2-tuple `([], [])`
returned when the API key is unset (line 17), or the normal 3-tuple
`(active, completed, display_name)`. -/
inductive FetchRet where
  | pair : FetchRet
  | triple : List Project → List Completed → Json → FetchRet

/-- Body of the `try` block of `get_client_projects` (lines 19-88): on
success it yields the active projects, the completed projects and the display
name resolved through `client_map`; any store/transport error raises. -/
def fetch_try_body (outcome : FetchOutcome) (client_code : Json) :
    Except String (List Project × List Completed × Json) :=
  match outcome with
  | .success active completed => .ok (active, completed, clientMapGet client_code)
  | .failure msg => .error msg

/-- `get_client_projects` (lines 14-92): returns `([], [])` when the API key
is falsy, otherwise runs the `try` body and degrades any raised error to
`([], [], client_code)`.  The outer `Except` records whether the function
itself raises towards its caller. -/
def get_client_projects (apiKey : Option String) (outcome : FetchOutcome)
    (client_code : Json) : Except String FetchRet :=
  if !optionTruthy apiKey then .ok .pair
  else
    match fetch_try_body outcome client_code with
    | .ok (active, completed, display_name) => .ok (.triple active completed display_name)
    | .error _ => .ok (.triple [] [] client_code)

/-- The `with_us` bucket of `build_wip_email` (line 99). -/
def with_us (projects : List Project) : List Project :=
  projects.filter fun p => p.status == "In Progress" && !p.with_client

/-- The `with_you` bucket of `build_wip_email` (line 100). -/
def with_you (projects : List Project) : List Project :=
  projects.filter fun p => p.status == "In Progress" && p.with_client

/-- The `on_hold` bucket of `build_wip_email` (line 101). -/
def on_hold (projects : List Project) : List Project :=
  projects.filter fun p => p.status == "On Hold"

/-- Decimal digits of a natural number, most significant first, with
explicit fuel (`fuel ≥ n` suffices); models Python `str(len(...))`. -/
def decReprGo : Nat → Nat → List Char → List Char
  | 0, n, acc => Nat.digitChar n :: acc
  | fuel + 1, n, acc =>
    if n < 10 then Nat.digitChar n :: acc
    else decReprGo fuel (n / 10) (Nat.digitChar (n % 10) :: acc)

/-- Python `str` of a natural number. -/
def decRepr (n : Nat) : String := ⟨decReprGo n n []⟩

/-- Opening of the stage badge `<span>` of `project_row` (line 105). -/
def stageOpen : String :=
  "<span style=\x27background-color: #f0f0f0; padding: 2px 8px; border-radius: 3px; font-size: 12px;\x27>"

/-- Closing `</span>` of the stage badge and of the live-date span. -/
def spanClose : String := "</span>"

/-- Opening of the live-date span of `project_row` (line 106). -/
def liveOpen : String := "<br><span style=\x27color: #666; font-size: 12px;\x27>Live: "

/-- Row template up to `{project[\x27job_number\x27]}` (lines 108-111). -/
def rowA : String :=
  "\n        <tr>\n            <td style=\"padding: 12px; border-bottom: 1px solid #eee;\">\n                <strong style=\"color: #ED1C24;\">"

/-- Row template between job number and job name (line 111). -/
def rowB : String := "</strong> - "

/-- Row template between job name and description (lines 111-112). -/
def rowC : String := "<br>\n                <span style=\"color: #666; font-size: 14px;\">"

/-- Row template between description and `{live_date}` (lines 112-113). -/
def rowD : String := "</span>\n                "

/-- Row template between `{live_date}` and `{stage_html}` (lines 113-116). -/
def rowE : String :=
  "\n            </td>\n            <td style=\"padding: 12px; border-bottom: 1px solid #eee; text-align: right;\">\n                "

/-- Row template after `{stage_html}` (lines 116-119). -/
def rowF : String := "\n            </td>\n        </tr>\n        "

/-- `project_row` (lines 104-119): one table row for a project. -/
def project_row (project : Project) (show_stage : Bool) : String :=
  let stage_html :=
    if show_stage && !project.stage.data.isEmpty then
      stageOpen ++ project.stage ++ spanClose
    else ""
  let live_date :=
    if !project.live_date.data.isEmpty then
      liveOpen ++ project.live_date ++ spanClose
    else ""
  rowA ++ project.job_number ++ rowB ++ project.job_name ++ rowC
    ++ project.description ++ rowD ++ live_date ++ rowE ++ stage_html ++ rowF

/-- `"".join(...)`: concatenation of the rendering of every list element. -/
def concatMapStr (f : α → String) : List α → String
  | [] => ""
  | a :: as => f a ++ concatMapStr f as

/-- Section template up to `{emoji}` (lines 125-129). -/
def secA : String :=
  "\n        <table width=\"100%\" cellpadding=\"0\" cellspacing=\"0\" style=\"margin-bottom: 24px;\">\n            <tr>\n                <td colspan=\"2\" style=\"padding: 12px; background-color: #f8f8f8; border-left: 4px solid #ED1C24;\">\n                    <strong>"

/-- Section template between `{title}` and `{len(project_list)}` (line 129). -/
def secB : String := "</strong> <span style=\"color: #666;\">("

/-- Section template between the count and `{rows}` (lines 129-132). -/
def secC : String :=
  " projects)</span>\n                </td>\n            </tr>\n            "

/-- Section template after `{rows}` (lines 132-134). -/
def secD : String := "\n        </table>\n        "

/-- `section` (lines 121-134): a bucket's table, or the empty string for an
empty bucket.  (`section` is a Lean keyword, hence the name.) -/
def sectionHtml (title emoji : String) (project_list : List Project)
    (show_stage : Bool) : String :=
  if project_list.isEmpty then ""
  else
    let rows := concatMapStr (fun p => project_row p show_stage) project_list
    secA ++ emoji ++ " " ++ title ++ secB ++ decRepr project_list.length
      ++ secC ++ rows ++ secD

/-- Item template up to `{p[\x27job_number\x27]}` (line 141). -/
def itemA : String :=
  "<li style=\x27margin-bottom: 8px;\x27><strong style=\x27color: #ED1C24;\x27>"

/-- One `<li>` item of the recently-completed list (lines 140-143). -/
def completed_item (p : Completed) : String :=
  itemA ++ p.job_number ++ "</strong> - " ++ p.job_name ++ " - " ++ p.description
    ++ "</li>"

/-- Completed-section template up to `{items}` (lines 145-151). -/
def compA : String :=
  "\n        <table width=\"100%\" cellpadding=\"0\" cellspacing=\"0\" style=\"margin-top: 32px; border-top: 2px solid #eee; padding-top: 24px;\">\n            <tr>\n                <td style=\"padding: 12px;\">\n                    <strong>✅ RECENTLY COMPLETED</strong>\n                    <ul style=\"margin-top: 12px; padding-left: 20px; color: #666;\">\n                        "

/-- Completed-section template after `{items}` (lines 152-156). -/
def compB : String :=
  "\n                    </ul>\n                </td>\n            </tr>\n        </table>\n        "

/-- `completed_section` (lines 136-156). -/
def completed_section (completed_list : List Completed) : String :=
  if completed_list.isEmpty then ""
  else
    let items := concatMapStr completed_item completed_list
    compA ++ items ++ compB

/-- First third of the document head (lines 160-181). -/
def htmlHead1 : String :=
  "\n<!DOCTYPE html>\n<html>\n<head>\n    <meta charset=\"UTF-8\">\n    <meta name=\"viewport\" content=\"width=device-width, initial-scale=1.0\">\n    <meta http-equiv=\"X-UA-Compatible\" content=\"IE=edge\">\n    <!--[if mso]>\n    <style type=\"text/css\">\n        table \x7bborder-collapse: collapse; border-spacing: 0; margin: 0;\x7d\n        div, td \x7bpadding: 0;\x7d\n        div \x7bmargin: 0 !important;\x7d\n    </style>\n    <noscript>\n        <xml>\n            <o:OfficeDocumentSettings>\n                <o:PixelsPerInch>96</o:PixelsPerInch>\n            </o:OfficeDocumentSettings>\n        </xml>\n    </noscript>\n    <![endif]-->\n    <style>"

/-- Second third of the document head (lines 182-195). -/
def htmlHead2 : String :=
  "\n        @media screen and (max-width: 600px) \x7b\n            .wrapper \x7b\n                width: 100% !important;\n                padding: 12px !important;\n            \x7d\n            .header-banner \x7b\n                padding: 16px !important;\n            \x7d\n        \x7d\n    </style>\n</head>\n<body style=\"margin: 0; padding: 0; font-family: Calibri, Arial, sans-serif; font-size: 15px; line-height: 1.5; color: #333; background-color: #ffffff; width: 100% !important; -webkit-text-size-adjust: 100%; -ms-text-size-adjust: 100%;\">\n    \n    <!-- Wrapper table for full width background -->"

/-- Last third of the document head, ending at the `{client_name}`
interpolation (lines 196-207). -/
def htmlHead3 : String :=
  "\n    <table width=\"100%\" cellpadding=\"0\" cellspacing=\"0\" border=\"0\" style=\"background-color: #ffffff;\">\n        <tr>\n            <td align=\"center\" style=\"padding: 20px 0;\">\n                \n                <!-- Content table -->\n                <table class=\"wrapper\" width=\"600\" cellpadding=\"0\" cellspacing=\"0\" border=\"0\" style=\"max-width: 600px; width: 100%;\">\n        \n                    <!-- Header -->\n                    <tr>\n                        <td class=\"header-banner\" style=\"padding: 20px; background-color: #ED1C24;\">\n                            <h1 style=\"margin: 0; color: #ffffff; font-size: 24px; font-weight: bold;\">Work in Progress</h1>\n                            <p style=\"margin: 8px 0 0 0; color: #ffffff; opacity: 0.9;\">"

/-- Head of the HTML document, up to the `{client_name}` interpolation
(lines 160-207). -/
def htmlHead : String := htmlHead1 ++ htmlHead2 ++ htmlHead3

/-- Fragment between `{today}` and the first section call (lines 207-214). -/
def htmlMid : String :=
  "</p>\n                        </td>\n                    </tr>\n        \n                    <!-- Content -->\n                    <tr>\n                        <td style=\"padding: 24px 20px;\">\n                            "

/-- Separator between consecutive section interpolations (lines 214-217). -/
def htmlSep : String := "\n                            "

/-- Tail of the HTML document, after `{completed_section(...)}`
(lines 217-236). -/
def htmlTail : String :=
  "\n                        </td>\n                    </tr>\n        \n                    <!-- Footer -->\n                    <tr>\n                        <td style=\"padding: 20px; border-top: 1px solid #eee; color: #999; font-size: 12px;\">\n                            Generated by Dot @ Hunch\n                        </td>\n                    </tr>\n        \n                </table>\n                \n            </td>\n        </tr>\n    </table>\n    \n</body>\n</html>\n"

/-- `build_wip_email` (lines 95-238).  `today` abstracts
`datetime.now().strftime("%d %B %Y")`. -/
def build_wip_email (client_name : String) (projects : List Project)
    (completed_projects : List Completed) (today : String) : String :=
  htmlHead ++ client_name ++ " | " ++ today ++ htmlMid
    ++ sectionHtml "WITH US" "🔨" (with_us projects) true
    ++ htmlSep
    ++ sectionHtml "WITH YOU" "📤" (with_you projects) true
    ++ htmlSep
    ++ sectionHtml "ON HOLD" "⏸️" (on_hold projects) false
    ++ htmlSep
    ++ completed_section completed_projects
    ++ htmlTail

/-- An HTTP response: status code and JSON body. -/
structure HResp where
  status : Nat
  body : Json

/-- The `error` field of a response body, when the body is an object. -/
def errorField (r : HResp) : Option Json :=
  match r.body with
  | .obj kvs => kvs.lookup "error"
  | _ => none

/-- The `try` block of the `/wip` handler (lines 247-272).  A `.error`
result is an exception reaching the handler's `except` clause. -/
def wip_try (apiKey : Option String) (outcome : FetchOutcome) (today : String)
    (body : Json) : Except String HResp := do
  let client_code ← pyGet body "clientCode" (.str "")
  if !jsonTruthy client_code then
    return ⟨400, .obj [("error", .str "No client code provided")]⟩
  let fr ← get_client_projects apiKey outcome client_code
  match fr with
  | .pair =>
    .error "ValueError: not enough values to unpack (expected 3, got 2)"
  | .triple active completed display_name =>
    if active.isEmpty && completed.isEmpty then
      return ⟨404, .obj [("error", .str "No projects found"),
                         ("clientCode", client_code)]⟩
    else
      let html := build_wip_email (pyStr display_name) active completed today
      return ⟨200, .obj [("clientCode", client_code),
                         ("clientName", display_name),
                         ("activeCount", .num active.length),
                         ("completedCount", .num completed.length),
                         ("html", .str html)]⟩

/-- The `/wip` handler (lines 244-278): runs the `try` block and maps any
exception to a 500 response. -/
def wip (apiKey : Option String) (outcome : FetchOutcome) (today : String)
    (body : Json) : HResp :=
  match wip_try apiKey outcome today body with
  | .ok r => r
  | .error e => ⟨500, .obj [("error", .str "Internal server error"),
                            ("details", .str e)]⟩

end Wip

namespace Wip

/-! ### Substring occurrence: boolean tests and their soundness -/

/-- `strOcc needle hay`: the needle occurs in the haystack as a contiguous
substring. -/
def strOcc (needle hay : String) : Prop := needle.data <:+: hay.data

/-- Boolean prefix test on character lists. -/
def isPre : List Char → List Char → Bool
  | [], _ => true
  | _ :: _, [] => false
  | a :: as, b :: bs => a == b && isPre as bs

/-- Boolean suffix test on character lists. -/
def isSuf (a b : List Char) : Bool := isPre a.reverse b.reverse

/-- Boolean substring test on character lists. -/
def hasSub (n : List Char) : List Char → Bool
  | [] => n.isEmpty
  | c :: cs => isPre n (c :: cs) || hasSub n cs

theorem isPre_iff : ∀ a b : List Char, isPre a b = true ↔ a <+: b
  | [], _ => by simp [isPre]
  | _ :: _, [] => by simp [isPre]
  | a :: as, b :: bs => by
    simp [isPre, isPre_iff as bs, List.cons_prefix_cons, beq_iff_eq]

theorem isSuf_iff (a b : List Char) : isSuf a b = true ↔ a <:+ b := by
  rw [isSuf, isPre_iff, List.reverse_prefix]

theorem hasSub_iff : ∀ h n : List Char, hasSub n h = true ↔ n <:+: h
  | [], n => by
    cases n <;> simp [hasSub, List.isEmpty]
  | c :: cs, n => by
    simp [hasSub, isPre_iff, hasSub_iff cs n, List.infix_cons_iff]

/-- An haystack of digit characters cannot contain a needle holding a
non-digit character. -/
theorem not_infix_of_digits {M h : List Char} (hM : ∃ c ∈ M, ¬ c.isDigit)
    (hh : ∀ c ∈ h, c.isDigit) : ¬ M <:+: h := by
  intro hinf
  obtain ⟨c, hcM, hcd⟩ := hM
  exact hcd (hh c (hinf.subset hcM))

/-! ### Span conditions at concatenation boundaries -/

/-- No nonempty proper tail of `M` is a prefix of `c`. -/
def tailsOK (M c : List Char) : Bool :=
  (List.range M.length).all fun i => i == 0 || !(isPre (M.drop i) c)

/-- No nonempty proper prefix of `M` is a suffix of `c`. -/
def headsOK (M c : List Char) : Bool :=
  (List.range M.length).all fun i => i == 0 || !(isSuf (M.take i) c)

/-- `c` is not a prefix of any nonempty proper tail of `M`. -/
def swallowOK (M c : List Char) : Bool :=
  (List.range M.length).all fun i => i == 0 || !(isPre c (M.drop i))

theorem tailsOK_sound {M c : List Char} (h : tailsOK M c = true) :
    ∀ i, 0 < i → i < M.length → ¬ (M.drop i <+: c) := by
  intro i h0 hi hp
  have hall := List.all_eq_true.mp h i (List.mem_range.mpr hi)
  rw [(isPre_iff (M.drop i) c).mpr hp] at hall
  simp at hall
  omega

theorem headsOK_sound {M c : List Char} (h : headsOK M c = true) :
    ∀ i, 0 < i → i < M.length → ¬ (M.take i <:+ c) := by
  intro i h0 hi hp
  have hall := List.all_eq_true.mp h i (List.mem_range.mpr hi)
  rw [(isSuf_iff (M.take i) c).mpr hp] at hall
  simp at hall
  omega

theorem swallowOK_sound {M c : List Char} (h : swallowOK M c = true) :
    ∀ i, 0 < i → i < M.length → ¬ (c <+: M.drop i) := by
  intro i h0 hi hp
  have hall := List.all_eq_true.mp h i (List.mem_range.mpr hi)
  rw [(isPre_iff c (M.drop i)).mpr hp] at hall
  simp at hall
  omega

/-! ### Decomposing prefixes and infixes of a concatenation -/

theorem prefix_append_cases {t a b : List Char} (h : t <+: a ++ b) :
    t <+: a ∨ (a <+: t ∧ t.drop a.length <+: b) := by
  obtain ⟨r, hr⟩ := h
  rcases List.append_eq_append_iff.mp hr with ⟨w, hw1, _⟩ | ⟨w, hw1, hw2⟩
  · exact Or.inl ⟨w, hw1.symm⟩
  · refine Or.inr ⟨⟨w, hw1.symm⟩, ?_⟩
    subst hw1
    rw [List.drop_left]
    exact ⟨r, hw2.symm⟩

theorem infix_append_cases {M a b : List Char} (h : M <:+: a ++ b) :
    M <:+: a ∨ M <:+: b ∨
      ∃ i, 0 < i ∧ i < M.length ∧ M.take i <:+ a ∧ M.drop i <+: b := by
  obtain ⟨u, v, huv⟩ := h
  have h2 : (u ++ M) ++ v = a ++ b := by simpa [List.append_assoc] using huv
  rcases List.append_eq_append_iff.mp h2 with ⟨w, hw1, _⟩ | ⟨w, hw1, hw2⟩
  · exact Or.inl ⟨u, w, by rw [hw1, List.append_assoc]⟩
  · rcases List.append_eq_append_iff.mp hw1 with ⟨x, hx1, hx2⟩ | ⟨x, hx1, hx2⟩
    · rcases eq_or_ne x [] with hxe | hxe
      · subst hxe
        rw [List.nil_append] at hx2
        subst hx2
        refine Or.inr (Or.inl ⟨[], v, ?_⟩)
        rw [List.nil_append, hw2]
      · rcases eq_or_ne w [] with hwe | hwe
        · subst hwe
          rw [List.append_nil] at hx2
          subst hx2
          exact Or.inl (hx1 ▸ (List.suffix_append u M).isInfix)
        · refine Or.inr (Or.inr ⟨x.length, ?_, ?_, ?_, ?_⟩)
          · simpa [List.length_pos] using hxe
          · rw [hx2, List.length_append]
            have : 0 < w.length := List.length_pos.mpr hwe
            omega
          · rw [hx2, List.take_left]
            exact hx1 ▸ List.suffix_append u x
          · rw [hx2, List.drop_left]
            exact ⟨v, hw2.symm⟩
    · refine Or.inr (Or.inl ⟨x, v, ?_⟩)
      rw [hw2, hx2, List.append_assoc]

/-! ### The invariant maintained while scanning the document right to left -/

/-- `M` does not occur in `h`. -/
def NoInf (M h : List Char) : Prop := ¬ M <:+: h

/-- No nonempty proper tail of `M` is a prefix of `h`. -/
def NoTl (M h : List Char) : Prop :=
  ∀ i, 0 < i → i < M.length → ¬ (M.drop i <+: h)

theorem noInf_nil {M : List Char} (hM : M ≠ []) : NoInf M [] :=
  fun h => hM (List.infix_nil.mp h)

theorem noTl_nil {M : List Char} : NoTl M [] := by
  intro i _ h2 hp
  have h3 := List.prefix_nil.mp hp
  rw [List.drop_eq_nil_iff] at h3
  omega

theorem noInf_append_safe {M c r : List Char} (hc : ¬ M <:+: c)
    (h1 : NoInf M r) (h2 : NoTl M r) : NoInf M (c ++ r) := by
  intro h
  rcases infix_append_cases h with h | h | ⟨i, hi0, hiM, _, hpb⟩
  · exact hc h
  · exact h1 h
  · exact h2 i hi0 hiM hpb

theorem noTl_append_safe {M c r : List Char}
    (hA : ∀ i, 0 < i → i < M.length → ¬ (M.drop i <+: c))
    (h2 : NoTl M r) : NoTl M (c ++ r) := by
  intro i hi0 hiM hp
  rcases prefix_append_cases hp with h | ⟨hcp, hdp⟩
  · exact hA i hi0 hiM h
  · rcases Nat.lt_or_ge (i + c.length) M.length with hlen | hlen
    · rw [List.drop_drop] at hdp
      exact h2 (i + c.length) (by omega) hlen hdp
    · have hle : (M.drop i).length ≤ c.length := by
        rw [List.length_drop]; omega
      have hceq : c = M.drop i :=
        hcp.eq_of_length (Nat.le_antisymm hcp.length_le hle)
      exact hA i hi0 hiM (hceq ▸ List.prefix_refl _)

theorem noTl_append_strong {M c r : List Char}
    (hA : ∀ i, 0 < i → i < M.length → ¬ (M.drop i <+: c))
    (hC : ∀ i, 0 < i → i < M.length → ¬ (c <+: M.drop i)) :
    NoTl M (c ++ r) := by
  intro i hi0 hiM hp
  rcases prefix_append_cases hp with h | ⟨hcp, _⟩
  · exact hA i hi0 hiM h
  · exact hC i hi0 hiM hcp

theorem noInf_append_unsafe {M c r : List Char} (hc : ¬ M <:+: c)
    (hB : ∀ i, 0 < i → i < M.length → ¬ (M.take i <:+ c))
    (h1 : NoInf M r) : NoInf M (c ++ r) := by
  intro h
  rcases infix_append_cases h with h | h | ⟨i, hi0, hiM, hsa, _⟩
  · exact hc h
  · exact h1 h
  · exact hB i hi0 hiM hsa

end Wip

namespace Wip

/-! ### The document as a list of pieces -/

/-- A piece of the rendered document: a fixed template chunk (`lit`) or an
interpolated value (`fld`). -/
inductive Piece where
  | lit : String → Piece
  | fld : String → Piece

/-- Concatenate the pieces back into the rendered string. -/
def renderPieces : List Piece → String
  | [] => ""
  | .lit s :: rest => s ++ renderPieces rest
  | .fld s :: rest => s ++ renderPieces rest

/-- One step of the right-to-left scan over a fixed chunk.  The state is
`some true` when the processed suffix neither contains `M` nor starts with a
nonempty proper tail of `M`; `some false` when it merely does not contain
`M`; `none` when the scan failed. -/
def stepChunk (M c : List Char) : Option Bool → Option Bool
  | none => none
  | some true => if hasSub M c then none else some (tailsOK M c)
  | some false =>
    if hasSub M c then none
    else if headsOK M c then some (tailsOK M c && swallowOK M c) else none

/-- One step of the scan over an interpolated value: sound only from the
strong state, and it always degrades it. -/
def stepField : Option Bool → Option Bool
  | some true => some false
  | _ => none

/-- Right-to-left scan of a piece list starting from state `st`. -/
def chainFold (M : List Char) : List Piece → Option Bool → Option Bool
  | [], st => st
  | .lit s :: rest, st => stepChunk M s.data (chainFold M rest st)
  | .fld _ :: rest, st => stepField (chainFold M rest st)

/-- Scan of a whole piece list. -/
def chainState (M : List Char) (ps : List Piece) : Option Bool :=
  chainFold M ps (some true)

theorem chainFold_append (M : List Char) :
    ∀ (xs ys : List Piece) (st : Option Bool),
      chainFold M (xs ++ ys) st = chainFold M xs (chainFold M ys st) := by
  intro xs ys st
  induction xs with
  | nil => rfl
  | cons p rest ih => cases p <;> simp [chainFold, ih]

/-- Soundness of the scan: a successful scan of the piece list, together with
the knowledge that `M` occurs in no interpolated value, shows that `M` does
not occur in the rendered document (and, in the strong state, that no
nonempty proper tail of `M` is a prefix of it). -/
theorem chain_sound (M : List Char) (hM : M ≠ []) :
    ∀ ps : List Piece, (∀ s, Piece.fld s ∈ ps → ¬ M <:+: s.data) →
      (chainState M ps = some true →
         NoInf M (renderPieces ps).data ∧ NoTl M (renderPieces ps).data) ∧
      (chainState M ps = some false → NoInf M (renderPieces ps).data) := by
  intro ps
  induction ps with
  | nil =>
    intro _
    refine ⟨fun _ => ⟨noInf_nil hM, noTl_nil⟩, fun h => ?_⟩
    simp [chainState, chainFold] at h
  | cons p rest ih =>
    intro hf
    have hfr : ∀ s, Piece.fld s ∈ rest → ¬ M <:+: s.data :=
      fun s hs => hf s (List.mem_cons_of_mem _ hs)
    obtain ⟨ih1, ih2⟩ := ih hfr
    cases p with
    | lit s =>
      rcases hrest : chainState M rest with _ | b
      · constructor <;> intro h1 <;>
          simp only [chainState, chainFold] at h1 <;>
          rw [chainState] at hrest <;> rw [hrest] at h1 <;>
          simp [stepChunk] at h1
      · rcases hsub : hasSub M s.data with _ | _
        · have hcnot : ¬ M <:+: s.data := fun hc => by
            rw [(hasSub_iff s.data M).mpr hc] at hsub
            cases hsub
          cases b
          · -- incoming state: weak
            have hNoInfR := ih2 hrest
            constructor
            · intro h1
              simp only [chainState, chainFold] at h1
              rw [chainState] at hrest
              rw [hrest] at h1
              simp only [stepChunk, hsub, Bool.false_eq_true, if_false] at h1
              rcases hheads : headsOK M s.data with _ | _
              · rw [hheads] at h1; simp at h1
              · rw [hheads] at h1
                simp only [if_true] at h1
                have h2 := Option.some.inj h1
                have ht : tailsOK M s.data = true := by
                  rcases Bool.and_eq_true .. |>.mp h2 with ⟨ha, _⟩
                  exact ha
                have hs2 : swallowOK M s.data = true := by
                  rcases Bool.and_eq_true .. |>.mp h2 with ⟨_, hb⟩
                  exact hb
                refine ⟨?_, ?_⟩
                · show NoInf M ((s ++ renderPieces rest).data)
                  rw [String.data_append]
                  exact noInf_append_unsafe hcnot (headsOK_sound hheads) hNoInfR
                · show NoTl M ((s ++ renderPieces rest).data)
                  rw [String.data_append]
                  exact noTl_append_strong (tailsOK_sound ht) (swallowOK_sound hs2)
            · intro h1
              simp only [chainState, chainFold] at h1
              rw [chainState] at hrest
              rw [hrest] at h1
              simp only [stepChunk, hsub, Bool.false_eq_true, if_false] at h1
              rcases hheads : headsOK M s.data with _ | _
              · rw [hheads] at h1; simp at h1
              · rw [hheads] at h1
                simp only [if_true] at h1
                show NoInf M ((s ++ renderPieces rest).data)
                rw [String.data_append]
                exact noInf_append_unsafe hcnot (headsOK_sound hheads) hNoInfR
          · -- incoming state: strong
            obtain ⟨hNoInfR, hNoTlR⟩ := ih1 hrest
            constructor
            · intro h1
              simp only [chainState, chainFold] at h1
              rw [chainState] at hrest
              rw [hrest] at h1
              simp only [stepChunk, hsub, Bool.false_eq_true, if_false] at h1
              have ht : tailsOK M s.data = true := Option.some.inj h1
              refine ⟨?_, ?_⟩
              · show NoInf M ((s ++ renderPieces rest).data)
                rw [String.data_append]
                exact noInf_append_safe hcnot hNoInfR hNoTlR
              · show NoTl M ((s ++ renderPieces rest).data)
                rw [String.data_append]
                exact noTl_append_safe (tailsOK_sound ht) hNoTlR
            · intro _
              show NoInf M ((s ++ renderPieces rest).data)
              rw [String.data_append]
              exact noInf_append_safe hcnot hNoInfR hNoTlR
        · -- hasSub = true: the step yields none, both implications vacuous
          constructor <;> intro h1 <;>
            simp only [chainState, chainFold] at h1 <;>
            rw [chainState] at hrest <;> rw [hrest] at h1 <;>
            cases b <;> simp [stepChunk, hsub] at h1
    | fld s =>
      have hcnot : ¬ M <:+: s.data := hf s (List.mem_cons_self _ _)
      constructor
      · intro h1
        exfalso
        rcases hrest : chainState M rest with _ | b
        · simp only [chainState, chainFold] at h1
          rw [chainState] at hrest; rw [hrest] at h1
          simp [stepField] at h1
        · cases b <;>
            simp only [chainState, chainFold] at h1 <;>
            rw [chainState] at hrest <;> rw [hrest] at h1 <;>
            simp [stepField] at h1
      · intro h1
        rcases hrest : chainState M rest with _ | b
        · simp only [chainState, chainFold] at h1
          rw [chainState] at hrest; rw [hrest] at h1
          simp [stepField] at h1
        · cases b
          · simp only [chainState, chainFold] at h1
            rw [chainState] at hrest; rw [hrest] at h1
            simp [stepField] at h1
          · obtain ⟨hNoInfR, hNoTlR⟩ := ih1 hrest
            show NoInf M ((s ++ renderPieces rest).data)
            rw [String.data_append]
            exact noInf_append_safe hcnot hNoInfR hNoTlR

end Wip

namespace Wip

/-! ### Digits of the record count -/

theorem digitChar_isDigit {d : Nat} (h : d < 10) :
    (Nat.digitChar d).isDigit = true := by
  interval_cases d <;> decide

theorem decReprGo_digits : ∀ (fuel n : Nat) (acc : List Char), n ≤ fuel →
    (∀ c ∈ acc, c.isDigit = true) →
    ∀ c ∈ decReprGo fuel n acc, c.isDigit = true := by
  intro fuel
  induction fuel with
  | zero =>
    intro n acc hn hacc c hc
    rw [decReprGo] at hc
    rcases List.mem_cons.mp hc with hc | hc
    · exact hc ▸ digitChar_isDigit (by omega)
    · exact hacc c hc
  | succ fuel ih =>
    intro n acc hn hacc c hc
    rw [decReprGo] at hc
    by_cases h : n < 10
    · rw [if_pos h] at hc
      rcases List.mem_cons.mp hc with hc | hc
      · exact hc ▸ digitChar_isDigit h
      · exact hacc c hc
    · rw [if_neg h] at hc
      have hlt : n / 10 < n := Nat.div_lt_self (by omega) (by omega)
      refine ih (n / 10) (Nat.digitChar (n % 10) :: acc) (by omega) ?_ c hc
      intro e he
      rcases List.mem_cons.mp he with he | he
      · exact he ▸ digitChar_isDigit (Nat.mod_lt n (by omega))
      · exact hacc e he

/-- A marker holding a non-digit character never occurs in a rendered record
count. -/
theorem marker_not_in_decRepr {M : List Char} (hM : ∃ c ∈ M, ¬ c.isDigit = true)
    (n : Nat) : ¬ M <:+: (decRepr n).data :=
  not_infix_of_digits hM
    (decReprGo_digits n n [] (Nat.le_refl n) (fun c hc => absurd hc (List.not_mem_nil c)))

/-! ### The renderer, decomposed into pieces -/

/-- `project_row`, as a list of template chunks and interpolated fields. -/
def row_pieces (p : Project) (show_stage : Bool) : List Piece :=
  [.lit rowA, .fld p.job_number, .lit rowB, .fld p.job_name, .lit rowC,
   .fld p.description, .lit rowD]
    ++ (if !p.live_date.data.isEmpty then
          [.lit liveOpen, .fld p.live_date, .lit spanClose] else [])
    ++ [.lit rowE]
    ++ (if show_stage && !p.stage.data.isEmpty then
          [.lit stageOpen, .fld p.stage, .lit spanClose] else [])
    ++ [.lit rowF]

/-- The rows of one section, as pieces. -/
def rows_pieces (show_stage : Bool) : List Project → List Piece
  | [] => []
  | p :: ps => row_pieces p show_stage ++ rows_pieces show_stage ps

/-- The section header chunk, from `secA` through `secB`. -/
def secHdr (title emoji : String) : String :=
  secA ++ emoji ++ " " ++ title ++ secB

/-- `section`, as pieces. -/
def section_pieces (title emoji : String) (project_list : List Project)
    (show_stage : Bool) : List Piece :=
  if project_list.isEmpty then []
  else
    [.lit (secHdr title emoji),
     .fld (decRepr project_list.length), .lit secC]
      ++ rows_pieces show_stage project_list ++ [.lit secD]

/-- One completed `<li>` item, as pieces. -/
def item_pieces (c : Completed) : List Piece :=
  [.lit itemA, .fld c.job_number, .lit "</strong> - ", .fld c.job_name,
   .lit " - ", .fld c.description, .lit "</li>"]

/-- The completed items, as pieces. -/
def items_pieces : List Completed → List Piece
  | [] => []
  | c :: cs => item_pieces c ++ items_pieces cs

/-- `completed_section`, as pieces. -/
def completed_pieces (cs : List Completed) : List Piece :=
  if cs.isEmpty then [] else [.lit compA] ++ items_pieces cs ++ [.lit compB]

/-- `build_wip_email`, as pieces. -/
def email_pieces (client_name : String) (projects : List Project)
    (completed_projects : List Completed) (today : String) : List Piece :=
  [.lit htmlHead1, .lit htmlHead2, .lit htmlHead3, .fld client_name,
   .lit " | ", .fld today, .lit htmlMid]
    ++ section_pieces "WITH US" "🔨" (with_us projects) true ++ [.lit htmlSep]
    ++ section_pieces "WITH YOU" "📤" (with_you projects) true ++ [.lit htmlSep]
    ++ section_pieces "ON HOLD" "⏸️" (on_hold projects) false ++ [.lit htmlSep]
    ++ completed_pieces completed_projects ++ [.lit htmlTail]

@[simp] theorem data_empty : ("" : String).data = [] := rfl

theorem string_data_eq {a b : String} (h : a.data = b.data) : a = b := by
  cases a; cases b; exact congrArg String.mk h

theorem renderPieces_append : ∀ xs ys : List Piece,
    renderPieces (xs ++ ys) = renderPieces xs ++ renderPieces ys := by
  intro xs ys
  induction xs with
  | nil =>
    apply string_data_eq
    simp [renderPieces]
  | cons p rest ih =>
    cases p <;> (apply string_data_eq; simp [renderPieces, ih])

theorem project_row_pieces_eq (p : Project) (b : Bool) :
    renderPieces (row_pieces p b) = project_row p b := by
  apply string_data_eq
  cases h1 : p.live_date.data.isEmpty <;> cases h2 : (b && !p.stage.data.isEmpty) <;>
    simp [row_pieces, project_row, renderPieces, renderPieces_append, h1, h2,
      List.append_assoc]

theorem rows_pieces_eq (b : Bool) : ∀ l : List Project,
    renderPieces (rows_pieces b l) = concatMapStr (fun p => project_row p b) l := by
  intro l
  induction l with
  | nil => rfl
  | cons p ps ih =>
    simp [rows_pieces, concatMapStr, renderPieces_append,
      project_row_pieces_eq, ih]

theorem section_pieces_eq (t e : String) (l : List Project) (b : Bool) :
    renderPieces (section_pieces t e l b) = sectionHtml t e l b := by
  cases hl : l.isEmpty
  · apply string_data_eq
    simp [section_pieces, sectionHtml, secHdr, hl, renderPieces_append,
      renderPieces, rows_pieces_eq, List.append_assoc]
  · simp [section_pieces, sectionHtml, hl, renderPieces]

theorem item_pieces_eq (c : Completed) :
    renderPieces (item_pieces c) = completed_item c := by
  apply string_data_eq
  simp [item_pieces, completed_item, renderPieces, List.append_assoc]

theorem items_pieces_eq : ∀ cs : List Completed,
    renderPieces (items_pieces cs) = concatMapStr completed_item cs := by
  intro cs
  induction cs with
  | nil => rfl
  | cons c cs ih =>
    simp [items_pieces, concatMapStr, renderPieces_append, item_pieces_eq, ih]

theorem completed_pieces_eq (cs : List Completed) :
    renderPieces (completed_pieces cs) = completed_section cs := by
  cases hc : cs.isEmpty
  · apply string_data_eq
    simp [completed_pieces, completed_section, hc, renderPieces_append,
      renderPieces, items_pieces_eq, List.append_assoc]
  · simp [completed_pieces, completed_section, hc, renderPieces]

theorem email_pieces_eq (n : String) (ps : List Project) (cs : List Completed)
    (t : String) :
    renderPieces (email_pieces n ps cs t) = build_wip_email n ps cs t := by
  apply string_data_eq
  simp [email_pieces, build_wip_email, renderPieces_append, renderPieces,
    section_pieces_eq, completed_pieces_eq, htmlHead, List.append_assoc]

end Wip

namespace Wip

/-! ### Evaluating the scan over the renderer's pieces -/

theorem row_fold_true (M : List Char) (b : Bool)
    (hA : stepChunk M rowA.data (some false) = some true)
    (hB : stepChunk M rowB.data (some false) = some true)
    (hC : stepChunk M rowC.data (some false) = some true)
    (hD : stepChunk M rowD.data (some true) = some true)
    (hE : stepChunk M rowE.data (some true) = some true)
    (hF : stepChunk M rowF.data (some true) = some true)
    (hLO : stepChunk M liveOpen.data (some false) = some true)
    (hSC : stepChunk M spanClose.data (some true) = some true)
    (hSO : stepChunk M stageOpen.data (some false) = some true) :
    ∀ p : Project, chainFold M (row_pieces p b) (some true) = some true := by
  intro p
  cases h1 : p.live_date.data.isEmpty <;> cases h2 : (b && !p.stage.data.isEmpty) <;>
    simp [row_pieces, h1, h2, chainFold_append, chainFold, stepField,
      hA, hB, hC, hD, hE, hF, hLO, hSC, hSO]

theorem rows_fold_true (M : List Char) (b : Bool)
    (hrow : ∀ p : Project, chainFold M (row_pieces p b) (some true) = some true) :
    ∀ l : List Project, chainFold M (rows_pieces b l) (some true) = some true := by
  intro l
  induction l with
  | nil => rfl
  | cons p ps ih => simp [rows_pieces, chainFold_append, ih, hrow]

theorem section_fold_true (M : List Char) (t e : String) (b : Bool)
    (hhdr : stepChunk M (secHdr t e).data (some false) = some true)
    (hc : stepChunk M secC.data (some true) = some true)
    (hd : stepChunk M secD.data (some true) = some true)
    (hrow : ∀ p : Project, chainFold M (row_pieces p b) (some true) = some true) :
    ∀ l : List Project,
      chainFold M (section_pieces t e l b) (some true) = some true := by
  intro l
  cases hl : l.isEmpty
  · simp [section_pieces, hl, chainFold_append, chainFold, stepField,
      hhdr, hc, hd, rows_fold_true M b hrow]
  · simp [section_pieces, hl, chainFold]

theorem item_fold_true (M : List Char)
    (hIA : stepChunk M itemA.data (some false) = some true)
    (hI2 : stepChunk M "</strong> - ".data (some false) = some true)
    (hI3 : stepChunk M " - ".data (some false) = some true)
    (hI4 : stepChunk M "</li>".data (some true) = some true) :
    ∀ c : Completed, chainFold M (item_pieces c) (some true) = some true := by
  intro c
  simp [item_pieces, chainFold, stepField, hIA, hI2, hI3, hI4]

theorem items_fold_true (M : List Char)
    (hitem : ∀ c : Completed, chainFold M (item_pieces c) (some true) = some true) :
    ∀ cs : List Completed,
      chainFold M (items_pieces cs) (some true) = some true := by
  intro cs
  induction cs with
  | nil => rfl
  | cons c cs ih => simp [items_pieces, chainFold_append, ih, hitem]

theorem completed_fold_true (M : List Char)
    (hCA : stepChunk M compA.data (some true) = some true)
    (hCB : stepChunk M compB.data (some true) = some true)
    (hitem : ∀ c : Completed, chainFold M (item_pieces c) (some true) = some true) :
    ∀ cs : List Completed,
      chainFold M (completed_pieces cs) (some true) = some true := by
  intro cs
  cases hc : cs.isEmpty
  · simp [completed_pieces, hc, chainFold_append, chainFold,
      hCA, hCB, items_fold_true M hitem]
  · simp [completed_pieces, hc, chainFold]

theorem email_chain_true (M : List Char) (n t : String) (ps : List Project)
    (cs : List Completed)
    (h1 : stepChunk M htmlHead1.data (some true) = some true)
    (h2 : stepChunk M htmlHead2.data (some true) = some true)
    (h3 : stepChunk M htmlHead3.data (some false) = some true)
    (hbar : stepChunk M " | ".data (some false) = some true)
    (hmid : stepChunk M htmlMid.data (some true) = some true)
    (hsep : stepChunk M htmlSep.data (some true) = some true)
    (hsec1 : chainFold M (section_pieces "WITH US" "🔨" (with_us ps) true)
      (some true) = some true)
    (hsec2 : chainFold M (section_pieces "WITH YOU" "📤" (with_you ps) true)
      (some true) = some true)
    (hsec3 : chainFold M (section_pieces "ON HOLD" "⏸️" (on_hold ps) false)
      (some true) = some true)
    (hcomp : chainFold M (completed_pieces cs) (some true) = some true)
    (htail : stepChunk M htmlTail.data (some true) = some true) :
    chainState M (email_pieces n ps cs t) = some true := by
  simp [chainState, email_pieces, chainFold_append, chainFold, stepField,
    h1, h2, h3, hbar, hmid, hsep, hsec1, hsec2, hsec3, hcomp, htail]

/-! ### Which strings appear as interpolated fields -/

theorem fld_mem_row {s : String} {p : Project} {b : Bool}
    (h : Piece.fld s ∈ row_pieces p b) :
    s = p.job_number ∨ s = p.job_name ∨ s = p.description ∨
      s = p.live_date ∨ s = p.stage := by
  cases h1 : p.live_date.data.isEmpty <;> cases h2 : (b && !p.stage.data.isEmpty) <;>
    simp [row_pieces, h1, h2] at h <;> tauto

theorem fld_mem_rows {s : String} {b : Bool} : ∀ {l : List Project},
    Piece.fld s ∈ rows_pieces b l → ∃ p ∈ l, Piece.fld s ∈ row_pieces p b := by
  intro l h
  induction l with
  | nil => simp [rows_pieces] at h
  | cons p ps ih =>
    rw [rows_pieces, List.mem_append] at h
    rcases h with h | h
    · exact ⟨p, List.mem_cons_self _ _, h⟩
    · obtain ⟨q, hq, hmem⟩ := ih h
      exact ⟨q, List.mem_cons_of_mem _ hq, hmem⟩

theorem fld_mem_section {s t e : String} {l : List Project} {b : Bool}
    (h : Piece.fld s ∈ section_pieces t e l b) :
    s = decRepr l.length ∨ ∃ p ∈ l, Piece.fld s ∈ row_pieces p b := by
  cases hl : l.isEmpty
  · rw [section_pieces] at h
    simp only [hl, Bool.false_eq_true, if_false, List.mem_append] at h
    rcases h with (h | h) | h
    · simp only [List.mem_cons, List.not_mem_nil, or_false] at h
      rcases h with h | h | h
      · cases h
      · exact Or.inl (Piece.fld.inj h)
      · cases h
    · exact Or.inr (fld_mem_rows h)
    · simp at h
  · rw [section_pieces] at h
    simp [hl] at h

theorem fld_mem_item {s : String} {c : Completed}
    (h : Piece.fld s ∈ item_pieces c) :
    s = c.job_number ∨ s = c.job_name ∨ s = c.description := by
  simp [item_pieces] at h
  tauto

theorem fld_mem_items {s : String} : ∀ {cs : List Completed},
    Piece.fld s ∈ items_pieces cs → ∃ c ∈ cs, Piece.fld s ∈ item_pieces c := by
  intro cs h
  induction cs with
  | nil => simp [items_pieces] at h
  | cons c cs ih =>
    rw [items_pieces, List.mem_append] at h
    rcases h with h | h
    · exact ⟨c, List.mem_cons_self _ _, h⟩
    · obtain ⟨d, hd, hmem⟩ := ih h
      exact ⟨d, List.mem_cons_of_mem _ hd, hmem⟩

theorem fld_mem_completed {s : String} {cs : List Completed}
    (h : Piece.fld s ∈ completed_pieces cs) :
    ∃ c ∈ cs, Piece.fld s ∈ item_pieces c := by
  cases hc : cs.isEmpty
  · rw [completed_pieces] at h
    simp only [hc, Bool.false_eq_true, if_false, List.mem_append] at h
    rcases h with (h | h) | h
    · simp at h
    · exact fld_mem_items h
    · simp at h
  · rw [completed_pieces] at h
    simp [hc] at h

theorem fld_mem_email {s n t : String} {ps : List Project}
    {cs : List Completed} (h : Piece.fld s ∈ email_pieces n ps cs t) :
    s = n ∨ s = t ∨
      s = decRepr (with_us ps).length ∨ s = decRepr (with_you ps).length ∨
      s = decRepr (on_hold ps).length ∨
      (∃ p ∈ ps, s = p.job_number ∨ s = p.job_name ∨ s = p.description ∨
        s = p.live_date ∨ s = p.stage) ∨
      (∃ c ∈ cs, s = c.job_number ∨ s = c.job_name ∨ s = c.description) := by
  have hsec : ∀ (ti e : String) (l : List Project) (b : Bool),
      Piece.fld s ∈ section_pieces ti e l b →
      (∀ q ∈ l, q ∈ ps) →
      s = decRepr l.length ∨
        (∃ p ∈ ps, s = p.job_number ∨ s = p.job_name ∨ s = p.description ∨
          s = p.live_date ∨ s = p.stage) := by
    intro ti e l b hmem hsub
    rcases fld_mem_section hmem with hcount | ⟨p, hp, hrow⟩
    · exact Or.inl hcount
    · exact Or.inr ⟨p, hsub p hp, fld_mem_row hrow⟩
  rw [email_pieces] at h
  simp only [List.mem_append] at h
  rcases h with ((((((((h | h) | h) | h) | h) | h) | h) | h) | h)
  · simp only [List.mem_cons, List.not_mem_nil, or_false] at h
    rcases h with h | h | h | h | h | h | h
    · cases h
    · cases h
    · cases h
    · exact Or.inl (Piece.fld.inj h)
    · cases h
    · exact Or.inr (Or.inl (Piece.fld.inj h))
    · cases h
  · rcases hsec _ _ _ _ h (fun q hq => List.mem_of_mem_filter hq) with h | h
    · exact Or.inr (Or.inr (Or.inl h))
    · exact Or.inr (Or.inr (Or.inr (Or.inr (Or.inr (Or.inl h)))))
  · simp at h
  · rcases hsec _ _ _ _ h (fun q hq => List.mem_of_mem_filter hq) with h | h
    · exact Or.inr (Or.inr (Or.inr (Or.inl h)))
    · exact Or.inr (Or.inr (Or.inr (Or.inr (Or.inr (Or.inl h)))))
  · simp at h
  · rcases hsec _ _ _ _ h (fun q hq => List.mem_of_mem_filter hq) with h | h
    · exact Or.inr (Or.inr (Or.inr (Or.inr (Or.inl h))))
    · exact Or.inr (Or.inr (Or.inr (Or.inr (Or.inr (Or.inl h)))))
  · simp at h
  · obtain ⟨c, hc, hmem⟩ := fld_mem_completed h
    exact Or.inr (Or.inr (Or.inr (Or.inr (Or.inr (Or.inr
      ⟨c, hc, fld_mem_item hmem⟩)))))
  · simp at h

end Wip

namespace Wip

/-- The marker string `m` occurs in none of the strings that
`build_wip_email` interpolates into the document: neither in the client
name, nor in the date string, nor in any interpolated field of the project
records or completed records. -/
def MarkerFree (m : String) (client_name today : String) (ps : List Project)
    (cs : List Completed) : Prop :=
  ¬ strOcc m client_name ∧ ¬ strOcc m today ∧
    (∀ p ∈ ps, ¬ strOcc m p.job_number ∧ ¬ strOcc m p.job_name ∧
      ¬ strOcc m p.description ∧ ¬ strOcc m p.live_date ∧ ¬ strOcc m p.stage) ∧
    (∀ c ∈ cs, ¬ strOcc m c.job_number ∧ ¬ strOcc m c.job_name ∧
      ¬ strOcc m c.description)

/-- Master lemma: a marker that contains a non-digit character, occurs in no
interpolated string, and whose right-to-left scan over the document pieces
succeeds, does not occur in the rendered document. -/
theorem email_no_marker (m : String) (hm : m.data ≠ [])
    (hdig : ∃ c ∈ m.data, ¬ c.isDigit = true)
    (n t : String) (ps : List Project) (cs : List Completed)
    (hfree : MarkerFree m n t ps cs)
    (hchain : chainState m.data (email_pieces n ps cs t) = some true) :
    ¬ strOcc m (build_wip_email n ps cs t) := by
  obtain ⟨hn, ht, hps, hcs⟩ := hfree
  have hfld : ∀ s, Piece.fld s ∈ email_pieces n ps cs t → ¬ m.data <:+: s.data := by
    intro s hs
    rcases fld_mem_email hs with h | h | h | h | h | ⟨p, hp, h⟩ | ⟨c, hc, h⟩
    · exact h ▸ hn
    · exact h ▸ ht
    · exact h ▸ marker_not_in_decRepr hdig _
    · exact h ▸ marker_not_in_decRepr hdig _
    · exact h ▸ marker_not_in_decRepr hdig _
    · obtain ⟨h1, h2, h3, h4, h5⟩ := hps p hp
      rcases h with h | h | h | h | h
      · exact h ▸ h1
      · exact h ▸ h2
      · exact h ▸ h3
      · exact h ▸ h4
      · exact h ▸ h5
    · obtain ⟨h1, h2, h3⟩ := hcs c hc
      rcases h with h | h | h
      · exact h ▸ h1
      · exact h ▸ h2
      · exact h ▸ h3
  have hsound := (chain_sound m.data hm (email_pieces n ps cs t) hfld).1 hchain
  rw [email_pieces_eq] at hsound
  exact hsound.1

end Wip

namespace Wip

set_option maxRecDepth 100000 in
/-- When the `with_us` bucket is empty and no interpolated string contains
"WITH US", the rendered document does not contain "WITH US". -/
theorem noOcc_withUs (n t : String) (ps : List Project) (cs : List Completed)
    (hempty : with_us ps = [])
    (hfree : MarkerFree "WITH US" n t ps cs) :
    ¬ strOcc "WITH US" (build_wip_email n ps cs t) := by
  apply email_no_marker _ (by decide) (by decide) _ _ _ _ hfree
  apply email_chain_true _ _ _ _ _ (by rfl) (by rfl) (by rfl) (by rfl) (by rfl) (by rfl)
  · rw [hempty]; rfl
  · exact section_fold_true _ _ _ _ (by rfl) (by rfl) (by rfl)
      (row_fold_true _ _ (by rfl) (by rfl) (by rfl) (by rfl) (by rfl) (by rfl)
        (by rfl) (by rfl) (by rfl)) _
  · exact section_fold_true _ _ _ _ (by rfl) (by rfl) (by rfl)
      (row_fold_true _ _ (by rfl) (by rfl) (by rfl) (by rfl) (by rfl) (by rfl)
        (by rfl) (by rfl) (by rfl)) _
  · exact completed_fold_true _ (by rfl) (by rfl)
      (item_fold_true _ (by rfl) (by rfl) (by rfl) (by rfl)) _
  · rfl

set_option maxRecDepth 100000 in
/-- When the `with_you` bucket is empty and no interpolated string contains
"WITH YOU", the rendered document does not contain "WITH YOU". -/
theorem noOcc_withYou (n t : String) (ps : List Project) (cs : List Completed)
    (hempty : with_you ps = [])
    (hfree : MarkerFree "WITH YOU" n t ps cs) :
    ¬ strOcc "WITH YOU" (build_wip_email n ps cs t) := by
  apply email_no_marker _ (by decide) (by decide) _ _ _ _ hfree
  apply email_chain_true _ _ _ _ _ (by rfl) (by rfl) (by rfl) (by rfl) (by rfl) (by rfl)
  · exact section_fold_true _ _ _ _ (by rfl) (by rfl) (by rfl)
      (row_fold_true _ _ (by rfl) (by rfl) (by rfl) (by rfl) (by rfl) (by rfl)
        (by rfl) (by rfl) (by rfl)) _
  · rw [hempty]; rfl
  · exact section_fold_true _ _ _ _ (by rfl) (by rfl) (by rfl)
      (row_fold_true _ _ (by rfl) (by rfl) (by rfl) (by rfl) (by rfl) (by rfl)
        (by rfl) (by rfl) (by rfl)) _
  · exact completed_fold_true _ (by rfl) (by rfl)
      (item_fold_true _ (by rfl) (by rfl) (by rfl) (by rfl)) _
  · rfl

set_option maxRecDepth 100000 in
/-- When the `on_hold` bucket is empty and no interpolated string contains
"ON HOLD", the rendered document does not contain "ON HOLD". -/
theorem noOcc_onHold (n t : String) (ps : List Project) (cs : List Completed)
    (hempty : on_hold ps = [])
    (hfree : MarkerFree "ON HOLD" n t ps cs) :
    ¬ strOcc "ON HOLD" (build_wip_email n ps cs t) := by
  apply email_no_marker _ (by decide) (by decide) _ _ _ _ hfree
  apply email_chain_true _ _ _ _ _ (by rfl) (by rfl) (by rfl) (by rfl) (by rfl) (by rfl)
  · exact section_fold_true _ _ _ _ (by rfl) (by rfl) (by rfl)
      (row_fold_true _ _ (by rfl) (by rfl) (by rfl) (by rfl) (by rfl) (by rfl)
        (by rfl) (by rfl) (by rfl)) _
  · exact section_fold_true _ _ _ _ (by rfl) (by rfl) (by rfl)
      (row_fold_true _ _ (by rfl) (by rfl) (by rfl) (by rfl) (by rfl) (by rfl)
        (by rfl) (by rfl) (by rfl)) _
  · rw [hempty]; rfl
  · exact completed_fold_true _ (by rfl) (by rfl)
      (item_fold_true _ (by rfl) (by rfl) (by rfl) (by rfl)) _
  · rfl

set_option maxRecDepth 100000 in
/-- When the completed list is empty and no interpolated string contains
"RECENTLY COMPLETED", the rendered document does not contain it. -/
theorem noOcc_completed (n t : String) (ps : List Project) (cs : List Completed)
    (hempty : cs = [])
    (hfree : MarkerFree "RECENTLY COMPLETED" n t ps cs) :
    ¬ strOcc "RECENTLY COMPLETED" (build_wip_email n ps cs t) := by
  apply email_no_marker _ (by decide) (by decide) _ _ _ _ hfree
  apply email_chain_true _ _ _ _ _ (by rfl) (by rfl) (by rfl) (by rfl) (by rfl) (by rfl)
  · exact section_fold_true _ _ _ _ (by rfl) (by rfl) (by rfl)
      (row_fold_true _ _ (by rfl) (by rfl) (by rfl) (by rfl) (by rfl) (by rfl)
        (by rfl) (by rfl) (by rfl)) _
  · exact section_fold_true _ _ _ _ (by rfl) (by rfl) (by rfl)
      (row_fold_true _ _ (by rfl) (by rfl) (by rfl) (by rfl) (by rfl) (by rfl)
        (by rfl) (by rfl) (by rfl)) _
  · exact section_fold_true _ _ _ _ (by rfl) (by rfl) (by rfl)
      (row_fold_true _ _ (by rfl) (by rfl) (by rfl) (by rfl) (by rfl) (by rfl)
        (by rfl) (by rfl) (by rfl)) _
  · rw [hempty]; rfl
  · rfl

end Wip

namespace Wip

/-! ### Positive occurrence helpers -/

instance strOccDecidable (n h : String) : Decidable (strOcc n h) :=
  decidable_of_iff (hasSub n.data h.data = true) (hasSub_iff h.data n.data)

theorem strOcc_append_left {m a : String} (b : String) (h : strOcc m a) :
    strOcc m (a ++ b) := by
  obtain ⟨u, v, huv⟩ := h
  refine ⟨u, v ++ b.data, ?_⟩
  rw [String.data_append, ← huv]
  simp [List.append_assoc]

theorem strOcc_append_right {m b : String} (a : String) (h : strOcc m b) :
    strOcc m (a ++ b) := by
  obtain ⟨u, v, huv⟩ := h
  refine ⟨a.data ++ u, v, ?_⟩
  rw [String.data_append, ← huv]
  simp [List.append_assoc]

/-! ### The date formatter, absent from `src/wip_app.py` -/

/-- Modelled from the spec: the three-letter month abbreviation used by the
date formatter's output format. -/
def monthAbbr : Nat → String
  | 1 => "Jan" | 2 => "Feb" | 3 => "Mar" | 4 => "Apr" | 5 => "May" | 6 => "Jun"
  | 7 => "Jul" | 8 => "Aug" | 9 => "Sep" | 10 => "Oct" | 11 => "Nov" | 12 => "Dec"
  | _ => ""

/-- Modelled from the spec: split a character list on a separator character
(the formats only use the single-character separators `-` and `/`). -/
def splitOnChar (sep : Char) : List Char → List (List Char)
  | [] => [[]]
  | c :: cs =>
    if c = sep then [] :: splitOnChar sep cs
    else
      match splitOnChar sep cs with
      | [] => [[c]]
      | h :: t => (c :: h) :: t

/-- Modelled from the spec: a nonempty all-digit component. -/
def isDigits (l : List Char) : Bool := !l.isEmpty && l.all Char.isDigit

/-- Modelled from the spec: numeric value of a digit component. -/
def parseNat (l : List Char) : Nat :=
  l.foldl (fun a c => a * 10 + (c.toNat - 48)) 0

/-- Modelled from the spec: validation of one year/month/day component
triple, returning `(day, month)`.  Components must be nonempty digit strings
of plausible width, with month in 1..12 and day in 1..31. -/
def parseDate (ys ms ds : List Char) : Option (Nat × Nat) :=
  if isDigits ys && isDigits ms && isDigits ds
      && ys.length ≤ 4 && ms.length ≤ 2 && ds.length ≤ 2 then
    if 1 ≤ parseNat ms && parseNat ms ≤ 12
        && 1 ≤ parseNat ds && parseNat ds ≤ 31 then
      some (parseNat ds, parseNat ms)
    else none
  else none

/-- Modelled from the spec: try one separator, in ISO `Y-M-D` order when
`iso`, else in `D-M-Y` order. -/
def tryFormat (sep : Char) (iso : Bool) (s : String) : Option (Nat × Nat) :=
  match splitOnChar sep s.data with
  | [a, b, c] => if iso then parseDate a b c else parseDate c b a
  | _ => none

/-- Modelled from the spec: the recognized formats, tried in the spec order
`{ISO: Y-M-D, D/M/Y, D-M-Y}`. -/
def parseAnyDate (s : String) : Option (Nat × Nat) :=
  tryFormat (Char.ofNat 45) true s <|> tryFormat (Char.ofNat 47) false s <|>
    tryFormat (Char.ofNat 45) false s

/-- Modelled from the spec: the date formatter of the repository (the spec
describes it for the source variant not shipped under `src/`): renders a
recognized date as day-of-month without leading zero followed by a
three-letter month abbreviation, and returns any unrecognized input
unchanged.  Total, hence it never raises. -/
def format_date (s : String) : String :=
  match parseAnyDate s with
  | some (d, m) => decRepr d ++ " " ++ monthAbbr m
  | none => s

theorem parseDate_range {ys ms ds : List Char} {d m : Nat}
    (h : parseDate ys ms ds = some (d, m)) :
    1 ≤ d ∧ d ≤ 31 ∧ 1 ≤ m ∧ m ≤ 12 := by
  rw [parseDate] at h
  split_ifs at h with h1 h2
  · rw [Option.some.injEq] at h
    have hd : parseNat ds = d := congrArg Prod.fst h
    have hm : parseNat ms = m := congrArg Prod.snd h
    simp only [Bool.and_eq_true, decide_eq_true_eq] at h2
    omega

theorem tryFormat_range {sep : Char} {b : Bool} {s : String} {d m : Nat}
    (h : tryFormat sep b s = some (d, m)) :
    1 ≤ d ∧ d ≤ 31 ∧ 1 ≤ m ∧ m ≤ 12 := by
  rw [tryFormat] at h
  rcases hsp : splitOnChar sep s.data with _ | ⟨a, _ | ⟨x, _ | ⟨c, _ | ⟨e, l⟩⟩⟩⟩ <;>
    rw [hsp] at h
  · exact Option.noConfusion h
  · exact Option.noConfusion h
  · exact Option.noConfusion h
  · cases b
    · exact parseDate_range (show parseDate c x a = some (d, m) from h)
    · exact parseDate_range (show parseDate a x c = some (d, m) from h)
  · exact Option.noConfusion h

theorem parseAnyDate_range {s : String} {d m : Nat}
    (h : parseAnyDate s = some (d, m)) :
    1 ≤ d ∧ d ≤ 31 ∧ 1 ≤ m ∧ m ≤ 12 := by
  rw [parseAnyDate] at h
  rcases h1 : tryFormat (Char.ofNat 45) true s with _ | dm
  · rw [h1, Option.none_orElse] at h
    rcases h2 : tryFormat (Char.ofNat 47) false s with _ | dm2
    · rw [h2, Option.none_orElse] at h
      exact tryFormat_range h
    · rw [h2, Option.some_orElse] at h
      exact tryFormat_range (h2.trans h)
  · rw [h1, Option.some_orElse] at h
    exact tryFormat_range (h1.trans h)

end Wip

namespace Wip

theorem mem_with_us_iff {projects : List Project} {p : Project} :
    p ∈ with_us projects ↔
      p ∈ projects ∧ p.status = "In Progress" ∧ p.with_client = false := by
  simp [with_us, List.mem_filter, and_assoc]

theorem mem_with_you_iff {projects : List Project} {p : Project} :
    p ∈ with_you projects ↔
      p ∈ projects ∧ p.status = "In Progress" ∧ p.with_client = true := by
  simp [with_you, List.mem_filter, and_assoc]

theorem mem_on_hold_iff {projects : List Project} {p : Project} :
    p ∈ on_hold projects ↔ p ∈ projects ∧ p.status = "On Hold" := by
  simp [on_hold, List.mem_filter]

theorem with_us_cons (p : Project) (ps : List Project) :
    with_us (p :: ps) =
      if p.status == "In Progress" && !p.with_client then p :: with_us ps
      else with_us ps :=
  List.filter_cons

theorem with_you_cons (p : Project) (ps : List Project) :
    with_you (p :: ps) =
      if p.status == "In Progress" && p.with_client then p :: with_you ps
      else with_you ps :=
  List.filter_cons

theorem on_hold_cons (p : Project) (ps : List Project) :
    on_hold (p :: ps) =
      if p.status == "On Hold" then p :: on_hold ps else on_hold ps :=
  List.filter_cons

theorem bucket_sizes (l : List Project) :
    (with_us l).length + (with_you l).length + (on_hold l).length ≤ l.length ∧
    ((with_us l).length + (with_you l).length + (on_hold l).length = l.length ↔
      ∀ p ∈ l, p.status = "In Progress" ∨ p.status = "On Hold") := by
  induction l with
  | nil => simp [with_us, with_you, on_hold]
  | cons p ps ih =>
    obtain ⟨ih1, ih2⟩ := ih
    rw [with_us_cons, with_you_cons, on_hold_cons, List.length_cons,
      List.forall_mem_cons]
    by_cases h1 : p.status = "In Progress"
    · have h2 : ¬ p.status = "On Hold" := by rw [h1]; decide
      cases hwc : p.with_client
      · rw [if_pos (by simp [h1, hwc]), if_neg (by simp [hwc]),
          if_neg (by simp [h2]), List.length_cons]
        refine ⟨by omega, ?_, ?_⟩
        · intro he
          exact ⟨Or.inl h1, ih2.mp (by omega)⟩
        · intro ⟨_, hall⟩
          have := ih2.mpr hall
          omega
      · rw [if_neg (by simp [hwc]), if_pos (by simp [h1, hwc]),
          if_neg (by simp [h2]), List.length_cons]
        refine ⟨by omega, ?_, ?_⟩
        · intro he
          exact ⟨Or.inl h1, ih2.mp (by omega)⟩
        · intro ⟨_, hall⟩
          have := ih2.mpr hall
          omega
    · by_cases h2 : p.status = "On Hold"
      · rw [if_neg (by simp [h1]), if_neg (by simp [h1]),
          if_pos (by simp [h2]), List.length_cons]
        refine ⟨by omega, ?_, ?_⟩
        · intro he
          exact ⟨Or.inr h2, ih2.mp (by omega)⟩
        · intro ⟨_, hall⟩
          have := ih2.mpr hall
          omega
      · rw [if_neg (by simp [h1]), if_neg (by simp [h1]),
          if_neg (by simp [h2])]
        refine ⟨by omega, ?_, ?_⟩
        · intro he
          have := ih1
          omega
        · intro ⟨hhead, _⟩
          rcases hhead with h | h
          · exact absurd h h1
          · exact absurd h h2

/-- C1: for every list of project records passed to `build_wip_email`, the
buckets follow the partition rule exactly: `with_us` holds precisely the
records with status "In Progress" and `with_client` false, `with_you` those
with status "In Progress" and `with_client` true, `on_hold` those with
status "On Hold", and a record matching none of the three predicates lands
in no bucket. -/
theorem C1_partition_rule (projects : List Project) (p : Project) :
    (p ∈ with_us projects ↔
      p ∈ projects ∧ p.status = "In Progress" ∧ p.with_client = false) ∧
    (p ∈ with_you projects ↔
      p ∈ projects ∧ p.status = "In Progress" ∧ p.with_client = true) ∧
    (p ∈ on_hold projects ↔ p ∈ projects ∧ p.status = "On Hold") ∧
    (p ∈ projects →
      ¬(p.status = "In Progress" ∧ p.with_client = false) →
      ¬(p.status = "In Progress" ∧ p.with_client = true) →
      ¬(p.status = "On Hold") →
      p ∉ with_us projects ∧ p ∉ with_you projects ∧ p ∉ on_hold projects) := by
  refine ⟨mem_with_us_iff, mem_with_you_iff, mem_on_hold_iff, ?_⟩
  intro _ hn1 hn2 hn3
  refine ⟨?_, ?_, ?_⟩
  · intro hm
    obtain ⟨_, hs, hw⟩ := mem_with_us_iff.mp hm
    exact hn1 ⟨hs, hw⟩
  · intro hm
    obtain ⟨_, hs, hw⟩ := mem_with_you_iff.mp hm
    exact hn2 ⟨hs, hw⟩
  · intro hm
    exact hn3 (mem_on_hold_iff.mp hm).2

/-- C1 witness: the partition rule evaluated at a concrete record list. -/
theorem C1_partition_rule_witness :
    let p : Project := ⟨"J1", "N", "D", "S", "In Progress", false, "", "", ""⟩
    p ∈ with_us [p] ∧ p ∉ with_you [p] ∧ p ∉ on_hold [p] := by
  intro p
  refine ⟨?_, ?_, ?_⟩
  · exact (C1_partition_rule [p] p).1.mpr ⟨List.mem_cons_self _ _, rfl, rfl⟩
  · intro hm
    have h := ((C1_partition_rule [p] p).2.1.mp hm).2.2
    exact absurd h (by decide)
  · intro hm
    have h := ((C1_partition_rule [p] p).2.2.1.mp hm).2
    exact absurd h (by decide)

/-- C2: each record lands in at most one bucket, the bucket sizes sum to at
most the input length, and the sum equals the length exactly when every
record has status "In Progress" or "On Hold". -/
theorem C2_bucket_invariants (projects : List Project) :
    (∀ p : Project,
      (p ∈ with_us projects → p ∉ with_you projects ∧ p ∉ on_hold projects) ∧
      (p ∈ with_you projects → p ∉ on_hold projects)) ∧
    (with_us projects).length + (with_you projects).length +
        (on_hold projects).length ≤ projects.length ∧
    ((with_us projects).length + (with_you projects).length +
        (on_hold projects).length = projects.length ↔
      ∀ p ∈ projects, p.status = "In Progress" ∨ p.status = "On Hold") := by
  obtain ⟨hle, hiff⟩ := bucket_sizes projects
  refine ⟨?_, hle, hiff⟩
  intro p
  constructor
  · intro hm
    obtain ⟨_, hs, hw⟩ := mem_with_us_iff.mp hm
    constructor
    · intro hm2
      obtain ⟨_, _, hw2⟩ := mem_with_you_iff.mp hm2
      rw [hw] at hw2
      exact absurd hw2 (by decide)
    · intro hm2
      have hs2 := (mem_on_hold_iff.mp hm2).2
      rw [hs] at hs2
      exact absurd hs2 (by decide)
  · intro hm
    obtain ⟨_, hs, _⟩ := mem_with_you_iff.mp hm
    intro hm2
    have hs2 := (mem_on_hold_iff.mp hm2).2
    rw [hs] at hs2
    exact absurd hs2 (by decide)

/-- C2 witness: the invariants evaluated at a concrete record list with one
record of each kind plus one unrecognized record. -/
theorem C2_bucket_invariants_witness :
    let l : List Project :=
      [⟨"J1", "", "", "", "In Progress", false, "", "", ""⟩,
       ⟨"J2", "", "", "", "In Progress", true, "", "", ""⟩,
       ⟨"J3", "", "", "", "On Hold", false, "", "", ""⟩,
       ⟨"J4", "", "", "", "Completed", false, "", "", ""⟩]
    (with_us l).length + (with_you l).length + (on_hold l).length ≤ l.length ∧
    ((with_us l).length + (with_you l).length + (on_hold l).length = l.length ↔
      ∀ p ∈ l, p.status = "In Progress" ∨ p.status = "On Hold") := by
  intro l
  exact ⟨(C2_bucket_invariants l).2.1, (C2_bucket_invariants l).2.2⟩

end Wip

namespace Wip

theorem isEmpty_false_of_ne {s : String} (h : s ≠ "") : s.data.isEmpty = false := by
  cases he : s.data.isEmpty
  · rfl
  · exact absurd (string_data_eq (by rw [List.isEmpty_iff.mp he])) h

/-- C3: a POST body that is a JSON object without a `clientCode` key, or
with `clientCode` mapped to the empty string, yields HTTP 400 with error
"No client code provided", independently of the store and configuration
(hence no fetch and no rendering take place). -/
theorem C3_missing_code_400 (apiKey : Option String) (outcome : FetchOutcome)
    (today : String) (kvs : List (String × Json))
    (h : kvs.lookup "clientCode" = none ∨
         kvs.lookup "clientCode" = some (.str "")) :
    wip apiKey outcome today (.obj kvs) =
      ⟨400, .obj [("error", .str "No client code provided")]⟩ := by
  have hg : pyGet (.obj kvs) "clientCode" (.str "") = .ok (.str "") := by
    rw [pyGet]
    rcases h with h | h <;> rw [h] <;> rfl
  rw [wip, wip_try, hg]
  rfl

/-- C3 witness: the empty-body scenario `POST /wip {}`. -/
theorem C3_missing_code_400_witness :
    wip none (.failure "down") "01 January 2025" (.obj []) =
      ⟨400, .obj [("error", .str "No client code provided")]⟩ :=
  C3_missing_code_400 none (.failure "down") "01 January 2025" [] (Or.inl rfl)

/-- C4: with a non-empty client code, a fetch that yields empty active and
completed lists produces HTTP 404 with error "No projects found" and the
supplied client code echoed. -/
theorem C4_no_projects_404 (apiKey : Option String) (outcome : FetchOutcome)
    (today : String) (body : Json) (code : String) (d : Json)
    (hcode : pyGet body "clientCode" (.str "") = .ok (.str code))
    (hne : code ≠ "")
    (hfetch : get_client_projects apiKey outcome (.str code) =
      .ok (.triple [] [] d)) :
    wip apiKey outcome today body =
      ⟨404, .obj [("error", .str "No projects found"),
                  ("clientCode", .str code)]⟩ := by
  have htr : jsonTruthy (.str code) = true := by
    simp [jsonTruthy, isEmpty_false_of_ne hne]
  rw [wip, wip_try, hcode]
  simp only [Bind.bind, Except.bind, htr, Bool.not_true, Bool.false_eq_true,
    if_false, hfetch]
  rfl

/-- C4 witness: a failing fetch (degraded to empty lists) for code "ABC". -/
theorem C4_no_projects_404_witness :
    wip (some "key") (.failure "boom") "01 January 2025"
        (.obj [("clientCode", .str "ABC")]) =
      ⟨404, .obj [("error", .str "No projects found"),
                  ("clientCode", .str "ABC")]⟩ :=
  C4_no_projects_404 (some "key") (.failure "boom") "01 January 2025"
    (.obj [("clientCode", .str "ABC")]) "ABC" (.str "ABC") rfl
    (by decide) rfl

/-- C5: `get_client_projects` never propagates an exception: for every
configuration, store behaviour and client code it returns a value, and when
the `try` block raises (with the API key set) it returns
`([], [], client_code)`. -/
theorem C5_fetch_never_raises (apiKey : Option String) (outcome : FetchOutcome)
    (code : Json) :
    (∃ r, get_client_projects apiKey outcome code = .ok r) ∧
    (∀ msg, outcome = .failure msg → optionTruthy apiKey = true →
      get_client_projects apiKey outcome code = .ok (.triple [] [] code)) := by
  constructor
  · rcases ho : optionTruthy apiKey with _ | _
    · exact ⟨.pair, by rw [get_client_projects, ho]; rfl⟩
    · rcases outcome with ⟨a, c⟩ | msg
      · exact ⟨_, by rw [get_client_projects, ho]; rfl⟩
      · exact ⟨_, by rw [get_client_projects, ho]; rfl⟩
  · intro msg hmsg ht
    subst hmsg
    rw [get_client_projects, ht]
    rfl

/-- C5 witness: a transport failure with the key set degrades to empty
lists with the code as display name. -/
theorem C5_fetch_never_raises_witness :
    (∃ r, get_client_projects (some "key") (.failure "timeout")
      (.str "ONE") = .ok r) ∧
    get_client_projects (some "key") (.failure "timeout") (.str "ONE") =
      .ok (.triple [] [] (.str "ONE")) :=
  ⟨(C5_fetch_never_raises (some "key") (.failure "timeout") (.str "ONE")).1,
   (C5_fetch_never_raises (some "key") (.failure "timeout") (.str "ONE")).2
     "timeout" rfl rfl⟩

/-- C9: with the API key unset, `get_client_projects` returns the 2-tuple
`([], [])`, so the handler's three-way unpacking raises and every request
with a non-empty client code gets HTTP 500 "Internal server error" instead
of 404. -/
theorem C9_unset_key_500 (outcome : FetchOutcome) (today : String)
    (body : Json) (code : String)
    (hcode : pyGet body "clientCode" (.str "") = .ok (.str code))
    (hne : code ≠ "") :
    get_client_projects none outcome (.str code) = .ok .pair ∧
    (wip none outcome today body).status = 500 ∧
    errorField (wip none outcome today body) =
      some (.str "Internal server error") := by
  have htr : jsonTruthy (.str code) = true := by
    simp [jsonTruthy, isEmpty_false_of_ne hne]
  have hwip : wip none outcome today body =
      ⟨500, .obj [("error", .str "Internal server error"),
                  ("details", .str "ValueError: not enough values to unpack (expected 3, got 2)")]⟩ := by
    rw [wip, wip_try, hcode]
    simp only [Bind.bind, Except.bind, htr, Bool.not_true, Bool.false_eq_true,
      if_false]
    rfl
  exact ⟨rfl, by rw [hwip], by rw [hwip]; rfl⟩

/-- C9 witness: code "ONE" with the key unset gets a 500. -/
theorem C9_unset_key_500_witness :
    get_client_projects none (.success [] []) (.str "ONE") = .ok .pair ∧
    (wip none (.success [] []) "01 January 2025"
      (.obj [("clientCode", .str "ONE")])).status = 500 ∧
    errorField (wip none (.success [] []) "01 January 2025"
      (.obj [("clientCode", .str "ONE")])) =
      some (.str "Internal server error") :=
  C9_unset_key_500 (.success [] []) "01 January 2025"
    (.obj [("clientCode", .str "ONE")]) "ONE" rfl (by decide)

/-- C10: a POST body that parses to a non-object JSON value makes the
extraction of the client code raise inside the handler's `try` block, so the
response is HTTP 500 "Internal server error", not the 400 of a codeless
object body. -/
theorem C10_non_object_body_500 (apiKey : Option String)
    (outcome : FetchOutcome) (today : String) (body : Json)
    (h : ∀ kvs, body ≠ .obj kvs) :
    (wip apiKey outcome today body).status = 500 ∧
    errorField (wip apiKey outcome today body) =
      some (.str "Internal server error") := by
  have hg : pyGet body "clientCode" (.str "") =
      .error "AttributeError: object has no attribute get" := by
    cases body <;> first | rfl | exact absurd rfl (h _)
  constructor <;> (rw [wip, wip_try, hg]; rfl)

/-- C10 witness: the body `null` (and hence any non-object) gets a 500. -/
theorem C10_non_object_body_500_witness :
    (wip (some "key") (.success [] []) "01 January 2025" .null).status = 500 ∧
    errorField (wip (some "key") (.success [] [])
      "01 January 2025" .null) = some (.str "Internal server error") :=
  C10_non_object_body_500 (some "key") (.success [] []) "01 January 2025"
    .null (fun _ h => Json.noConfusion h)

end Wip

namespace Wip

/-- C8: the date formatter never raises (it is a total function); on every
input matching one of the three recognized formats it renders the date as a
day with no leading zero, a space, and a three-letter month abbreviation,
and on every non-matching input (including the empty string) it returns the
input unchanged. -/
theorem C8_date_formatter (s : String) :
    (parseAnyDate s = none → format_date s = s) ∧
    (∀ d m, parseAnyDate s = some (d, m) →
      format_date s = decRepr d ++ " " ++ monthAbbr m ∧
      1 ≤ d ∧ d ≤ 31 ∧ 1 ≤ m ∧ m ≤ 12 ∧
      (decRepr d).data.head? ≠ some '0' ∧
      (monthAbbr m).data.length = 3) := by
  constructor
  · intro h
    rw [format_date, h]
  · intro d m h
    obtain ⟨h1, h2, h3, h4⟩ := parseAnyDate_range h
    refine ⟨by rw [format_date, h], h1, h2, h3, h4, ?_, ?_⟩
    · interval_cases d <;> decide
    · interval_cases m <;> decide

/-- C8 witness: the formatter at a recognized ISO date and at a
non-matching sentinel input. -/
theorem C8_date_formatter_witness :
    format_date "2025-03-05" = "5 Mar" ∧ format_date "TBC" = "TBC" ∧
    format_date "" = "" := by
  refine ⟨?_, ?_, ?_⟩
  · have h := (C8_date_formatter "2025-03-05").2 5 3 (by decide)
    rw [h.1]
    decide
  · exact (C8_date_formatter "TBC").1 (by decide)
  · exact (C8_date_formatter "").1 (by decide)

end Wip

namespace Wip

/-- A record whose description field happens to contain the text of the
`with_you` section marker, while the record itself lands in `with_us`. -/
def pMarkerDemo : Project :=
  ⟨"ONE123", "Website", "WITH YOU", "", "In Progress", false, "", "", ""⟩

set_option maxRecDepth 100000 in
/-- C6 counterexample: with the `with_you` bucket empty but a remaining
record whose description field is the string "WITH YOU", the marker text
"WITH YOU" does occur in the rendered HTML, refuting the claim for
arbitrary (unescaped) field values. -/
theorem C6_counterexample :
    with_you [pMarkerDemo] = [] ∧
    strOcc "WITH YOU"
      (build_wip_email "Hunch" [pMarkerDemo] [] "01 January 2025") := by
  refine ⟨rfl, ?_⟩
  have hsec : strOcc "WITH YOU"
      (sectionHtml "WITH US" "🔨" (with_us [pMarkerDemo]) true) :=
    (hasSub_iff _ _).mp (by rfl)
  rw [build_wip_email]
  exact strOcc_append_left _ (strOcc_append_left _ (strOcc_append_left _
    (strOcc_append_left _ (strOcc_append_left _ (strOcc_append_left _
      (strOcc_append_left _ (strOcc_append_right _ hsec)))))))

/-- C6 amended: for every input in which a given bucket is empty AND the
bucket's marker text occurs in none of the interpolated strings (client
name, date string, and the interpolated fields of the remaining records and
completed records), that marker text does not occur in the rendered HTML. -/
theorem C6_amended_empty_bucket (n t : String) (ps : List Project)
    (cs : List Completed) :
    (with_us ps = [] → MarkerFree "WITH US" n t ps cs →
      ¬ strOcc "WITH US" (build_wip_email n ps cs t)) ∧
    (with_you ps = [] → MarkerFree "WITH YOU" n t ps cs →
      ¬ strOcc "WITH YOU" (build_wip_email n ps cs t)) ∧
    (on_hold ps = [] → MarkerFree "ON HOLD" n t ps cs →
      ¬ strOcc "ON HOLD" (build_wip_email n ps cs t)) ∧
    (cs = [] → MarkerFree "RECENTLY COMPLETED" n t ps cs →
      ¬ strOcc "RECENTLY COMPLETED" (build_wip_email n ps cs t)) :=
  ⟨fun he hf => noOcc_withUs n t ps cs he hf,
   fun he hf => noOcc_withYou n t ps cs he hf,
   fun he hf => noOcc_onHold n t ps cs he hf,
   fun he hf => noOcc_completed n t ps cs he hf⟩

set_option maxRecDepth 100000 in
/-- C6 amended witness: with no records at all, none of the four marker
texts occurs in the rendered HTML. -/
theorem C6_amended_empty_bucket_witness :
    ¬ strOcc "WITH US" (build_wip_email "Hunch" [] [] "01 January 2025") ∧
    ¬ strOcc "WITH YOU" (build_wip_email "Hunch" [] [] "01 January 2025") ∧
    ¬ strOcc "ON HOLD" (build_wip_email "Hunch" [] [] "01 January 2025") ∧
    ¬ strOcc "RECENTLY COMPLETED"
      (build_wip_email "Hunch" [] [] "01 January 2025") := by
  have h := C6_amended_empty_bucket "Hunch" "01 January 2025" [] []
  refine ⟨h.1 rfl ?_, h.2.1 rfl ?_, h.2.2.1 rfl ?_, h.2.2.2 rfl ?_⟩ <;>
    exact ⟨by decide, by decide,
      fun p hp => absurd hp (List.not_mem_nil p),
      fun c hc => absurd hc (List.not_mem_nil c)⟩

end Wip

namespace Wip

/-- The in-progress, not-with-client record of the "ONE" scenario. -/
def pOne1 : Project :=
  ⟨"ONE101", "Website refresh", "New landing page", "Design",
   "In Progress", false, "", "", ""⟩

/-- The on-hold record of the "ONE" scenario. -/
def pOne2 : Project :=
  ⟨"ONE102", "Billing app", "Mobile billing", "", "On Hold", false, "", "", ""⟩

set_option maxRecDepth 100000 in
/-- C7: for client code "ONE" with one in-progress/not-with-client record
and one on-hold record and no completed records, the response is HTTP 200
with client name "One NZ", activeCount 2 and completedCount 0; the HTML is
the rendering of those records, in which the "WITH US" section header
appears with count 1, the "ON HOLD" section header appears with count 1,
and "WITH YOU" does not occur. -/
theorem C7_one_nz_scenario :
    wip (some "key") (.success [pOne1, pOne2] []) "01 January 2025"
        (.obj [("clientCode", .str "ONE")]) =
      ⟨200, .obj [("clientCode", .str "ONE"), ("clientName", .str "One NZ"),
                  ("activeCount", .num 2), ("completedCount", .num 0),
                  ("html", .str (build_wip_email "One NZ" [pOne1, pOne2] []
                    "01 January 2025"))]⟩ ∧
    with_us [pOne1, pOne2] = [pOne1] ∧
    with_you [pOne1, pOne2] = [] ∧
    on_hold [pOne1, pOne2] = [pOne2] ∧
    strOcc "🔨 WITH US</strong> <span style=\"color: #666;\">(1 projects)"
      (build_wip_email "One NZ" [pOne1, pOne2] [] "01 January 2025") ∧
    strOcc "⏸️ ON HOLD</strong> <span style=\"color: #666;\">(1 projects)"
      (build_wip_email "One NZ" [pOne1, pOne2] [] "01 January 2025") ∧
    ¬ strOcc "WITH YOU"
      (build_wip_email "One NZ" [pOne1, pOne2] [] "01 January 2025") := by
  refine ⟨rfl, rfl, rfl, rfl, ?_, ?_, ?_⟩
  · have hP : strOcc "🔨 WITH US</strong> <span style=\"color: #666;\">(1 projects)"
        (secA ++ "🔨" ++ " " ++ "WITH US" ++ secB
          ++ decRepr (with_us [pOne1, pOne2]).length ++ secC) :=
      (hasSub_iff _ _).mp (by rfl)
    have hsec : strOcc "🔨 WITH US</strong> <span style=\"color: #666;\">(1 projects)"
        (sectionHtml "WITH US" "🔨" (with_us [pOne1, pOne2]) true) :=
      strOcc_append_left _ (strOcc_append_left _ hP)
    rw [build_wip_email]
    exact strOcc_append_left _ (strOcc_append_left _ (strOcc_append_left _
      (strOcc_append_left _ (strOcc_append_left _ (strOcc_append_left _
        (strOcc_append_left _ (strOcc_append_right _ hsec)))))))
  · have hP : strOcc "⏸️ ON HOLD</strong> <span style=\"color: #666;\">(1 projects)"
        (secA ++ "⏸️" ++ " " ++ "ON HOLD" ++ secB
          ++ decRepr (on_hold [pOne1, pOne2]).length ++ secC) :=
      (hasSub_iff _ _).mp (by rfl)
    have hsec : strOcc "⏸️ ON HOLD</strong> <span style=\"color: #666;\">(1 projects)"
        (sectionHtml "ON HOLD" "⏸️" (on_hold [pOne1, pOne2]) false) :=
      strOcc_append_left _ (strOcc_append_left _ hP)
    rw [build_wip_email]
    exact strOcc_append_left _ (strOcc_append_left _ (strOcc_append_left _
      (strOcc_append_right _ hsec)))
  · refine noOcc_withYou "One NZ" "01 January 2025" [pOne1, pOne2] [] rfl ?_
    refine ⟨by decide, by decide, ?_, fun c hc => absurd hc (List.not_mem_nil c)⟩
    intro p hp
    rcases List.mem_cons.mp hp with rfl | hp
    · exact ⟨by decide, by decide, by decide, by decide, by decide⟩
    rcases List.mem_cons.mp hp with rfl | hp
    · exact ⟨by decide, by decide, by decide, by decide, by decide⟩
    · exact absurd hp (List.not_mem_nil p)

end Wip
